import Mathlib

/-!
Verification of the ripple lifecycle engine of the earthquake ripple
visualizer (`script.js`).  The per-frame update/prune loop, the spawn
arithmetic, the auto-spawn throttle and the coordinate wraparound helpers
are embedded as pure Lean functions over `ℚ` (JavaScript numbers are
idealized as exact rationals), with mutable arrays as `List`s and the
module-level throttle variables as an explicit state record.
-/

set_option autoImplicit false

namespace Quakes

/-- A ripple record, as pushed by `createRippleFromWorld` in `script.js`
(fields `baseX, baseY, radius, maxRadius, speed, lineWidth, baseColor,
opacity, fromAuto`). -/
structure Ripple where
  baseX : ℚ
  baseY : ℚ
  radius : ℚ
  maxRadius : ℚ
  speed : ℚ
  lineWidth : ℚ
  baseColor : String
  opacity : ℚ
  fromAuto : Bool
deriving DecidableEq, Repr

/-- `createRippleFromWorld(baseX, baseY, magnitude, depth, speedMultiplier,
fromAuto)` from `script.js` lines 94-131: clamps magnitude to [3,9] and depth
to [0,700], derives `magFactor`/`depthFactor`, and builds the ripple record
that the source pushes onto the `ripples` array. -/
def createRippleFromWorld (baseX baseY magnitude depth speedMultiplier : ℚ)
    (fromAuto : Bool) : Ripple :=
  let mag := max 3 (min 9 magnitude)
  let depthKm := max 0 (min 700 depth)
  let magFactor := (mag - 3) / 6
  let depthFactor := 1 - depthKm / 700
  let baseMaxRadius : ℚ := 80
  let extraRadius : ℚ := 220
  let maxRadius := baseMaxRadius + extraRadius * magFactor * (0.4 + 0.6 * depthFactor)
  let baseSpeed : ℚ := 1.1
  let rippleSpeed := baseSpeed * speedMultiplier * (0.6 + 0.8 * magFactor)
  let lineWidth := 2 + 3 * magFactor
  let color := if fromAuto then "#4ade80" else "#22d3ee"
  { baseX := baseX, baseY := baseY, radius := 0, maxRadius := maxRadius,
    speed := rippleSpeed, lineWidth := lineWidth, baseColor := color,
    opacity := 1, fromAuto := fromAuto }

/-- The `ripples.push(...)` effect of `createRippleFromWorld`: the new ripple
is appended at the end of the store. -/
def pushRipple (rs : List Ripple) (baseX baseY magnitude depth speedMultiplier : ℚ)
    (fromAuto : Bool) : List Ripple :=
  rs ++ [createRippleFromWorld baseX baseY magnitude depth speedMultiplier fromAuto]

/-- The per-ripple mutation of one pass of the loop in `drawFrame`
(`script.js` lines 338-340): `r.radius += r.speed; r.opacity = 1 - r.radius /
r.maxRadius`. -/
def stepRipple (r : Ripple) : Ripple :=
  let radius := r.radius + r.speed
  { r with radius := radius, opacity := 1 - radius / r.maxRadius }

/-- The removal test of `drawFrame` line 342, applied to the already-updated
ripple: `r.radius >= r.maxRadius || r.opacity <= 0`. -/
def rippleDone (r : Ripple) : Prop :=
  r.maxRadius ≤ r.radius ∨ r.opacity ≤ 0

instance (r : Ripple) : Decidable (rippleDone r) :=
  inferInstanceAs (Decidable (_ ∨ _))

/-- One iteration of the reverse loop body of `drawFrame` lines 336-345 at
index `i`: update the ripple in place, then `splice(i, 1)` when the removal
test holds.  Out-of-range indices leave the store unchanged (the source loop
never produces one). -/
def processAt (rs : List Ripple) (i : Nat) : List Ripple :=
  if h : i < rs.length then
    if rippleDone (stepRipple (rs.get ⟨i, h⟩))
    then (rs.set i (stepRipple (rs.get ⟨i, h⟩))).eraseIdx i
    else rs.set i (stepRipple (rs.get ⟨i, h⟩))
  else rs

/-- The reverse index loop `for (let i = ...; i >= 0; i--)` of `drawFrame`,
run from index `i` down to `0`. -/
def pruneFrom (rs : List Ripple) : Nat → List Ripple
  | 0 => processAt rs 0
  | i + 1 => pruneFrom (processAt rs (i + 1)) i

/-- The whole ripple update-and-prune pass of one `drawFrame` invocation
(`script.js` lines 336-345): the loop starts at `ripples.length - 1` and
does not run on an empty store. -/
def advanceAndPrune (rs : List Ripple) : List Ripple :=
  if rs.length = 0 then rs else pruneFrom rs (rs.length - 1)

/-- JavaScript `Math.trunc`-style truncation implicit in the `%` operator:
rounding the quotient toward zero. -/
def jsTrunc (q : ℚ) : ℤ :=
  if 0 ≤ q then ⌊q⌋ else ⌈q⌉

/-- The JavaScript remainder operator `a % b`: `a - b * trunc(a / b)`, whose
result takes the sign of the dividend. -/
def jsMod (a b : ℚ) : ℚ :=
  a - b * jsTrunc (a / b)

/-- `normalizeOffset()` from `script.js` lines 63-66, with the global
`mapOffsetX` and `canvas.width` made explicit parameters:
`((mapOffsetX % w) + w) % w`. -/
def normalizeOffset (mapOffsetX w : ℚ) : ℚ :=
  jsMod (jsMod mapOffsetX w + w) w

/-- The base-to-screen projection inlined in `drawFrame` lines 321-322 (and
in the marker/tooltip code): `screenX = baseX + offset; if (screenX >
canvas.width) screenX -= canvas.width`. -/
def toScreen (baseX offset w : ℚ) : ℚ :=
  let screenX := baseX + offset
  if w < screenX then screenX - w else screenX

/-- The screen-to-base projection of the click handler, `script.js` lines
182-183: `baseX = screenX - offset; if (baseX < 0) baseX += canvas.width`. -/
def toBase (screenX offset w : ℚ) : ℚ :=
  let baseX := screenX - offset
  if baseX < 0 then baseX + w else baseX

/-- An earthquake record as consumed by the auto-ripple logic: the
precomputed base coordinates plus magnitude and depth. -/
structure Quake where
  baseX : ℚ
  baseY : ℚ
  mag : ℚ
  depth : ℚ
deriving DecidableEq, Repr

/-- The module-level auto-ripple state of `script.js` lines 261-262:
`autoRippleIndex` (starts 0) and `lastAutoRippleTime` (starts 0). -/
structure AutoState where
  autoRippleIndex : Nat
  lastAutoRippleTime : ℚ
deriving DecidableEq, Repr

/-- The initial values of the auto-ripple state (`script.js` lines 261-262). -/
def initAutoState : AutoState :=
  { autoRippleIndex := 0, lastAutoRippleTime := 0 }

/-- `maybeSpawnAutoRipple(timestamp)` from `script.js` lines 265-282, with
the globals (checkbox, quake list, speed slider, throttle state, ripple
store) made explicit.  Returns the updated throttle state and ripple store. -/
def maybeSpawnAutoRipple (enabled : Bool) (events : List Quake) (sm : ℚ)
    (timestamp : ℚ) (st : AutoState) (rs : List Ripple) :
    AutoState × List Ripple :=
  if h : enabled = false ∨ events = [] then (st, rs)
  else if timestamp - st.lastAutoRippleTime < 2000 then (st, rs)
  else
    let q := events.get ⟨st.autoRippleIndex % events.length,
      Nat.mod_lt _ (List.length_pos.mpr (fun he => h (Or.inr he)))⟩
    ({ autoRippleIndex := st.autoRippleIndex + 1, lastAutoRippleTime := timestamp },
      pushRipple rs q.baseX q.baseY q.mag q.depth sm true)

/-- Repeated frames of the auto-spawn logic: fold `maybeSpawnAutoRipple`
over a list of animation timestamps with the controls held fixed. -/
def runAuto (enabled : Bool) (events : List Quake) (sm : ℚ)
    (ts : List ℚ) (init : AutoState × List Ripple) : AutoState × List Ripple :=
  ts.foldl (fun acc t => maybeSpawnAutoRipple enabled events sm t acc.1 acc.2) init

/-! ### The reverse splice loop visits every ripple once

The loop of `drawFrame` iterates from the last index down to `0` and
`splice`s the current index out when the removal test fires; we show it is
extensionally the map-then-filter pass the specification describes. -/

theorem eraseIdx_append_len {α : Type} (l₀ l₂ : List α) (b : α) :
    (l₀ ++ b :: l₂).eraseIdx l₀.length = l₀ ++ l₂ := by
  induction l₀ with
  | nil => rfl
  | cons x xs ih => simpa [List.eraseIdx] using ih

theorem processAt_append_len (l₀ l₂ : List Ripple) (a : Ripple) :
    processAt (l₀ ++ a :: l₂) l₀.length =
      l₀ ++ ([stepRipple a].filter (fun r => decide ¬ rippleDone r) ++ l₂) := by
  have hlt : l₀.length < (l₀ ++ a :: l₂).length := by
    simp
  rw [processAt, dif_pos hlt]
  have hget : (l₀ ++ a :: l₂).get ⟨l₀.length, hlt⟩ = a := by
    simp [List.getElem_append_right (Nat.le_refl l₀.length)]
  rw [hget, List.set_append]
  rw [if_neg (lt_irrefl l₀.length), Nat.sub_self, List.set_cons_zero]
  by_cases hd : rippleDone (stepRipple a)
  · rw [if_pos hd]
    simp [List.filter, hd, eraseIdx_append_len l₀ l₂ (stepRipple a)]
  · rw [if_neg hd]
    simp [List.filter, hd]

theorem pruneFrom_spec :
    ∀ (i : Nat) (l₁ l₂ : List Ripple), l₁.length = i + 1 →
      pruneFrom (l₁ ++ l₂) i =
        (l₁.map stepRipple).filter (fun r => decide ¬ rippleDone r) ++ l₂ := by
  intro i
  induction i with
  | zero =>
    intro l₁ l₂ hlen
    match l₁, hlen with
    | [a], _ =>
      rw [pruneFrom]
      simpa using processAt_append_len [] l₂ a
  | succ i ih =>
    intro l₁ l₂ hlen
    rcases List.eq_nil_or_concat' l₁ with rfl | ⟨l₀, a, rfl⟩
    · simp at hlen
    · have hl₀ : l₀.length = i + 1 := by
        simpa using hlen
      rw [pruneFrom, List.append_assoc, List.singleton_append, ← hl₀,
        processAt_append_len l₀ l₂ a, ih l₀ _ hl₀]
      simp [List.filter_append]

theorem advanceAndPrune_eq (rs : List Ripple) :
    advanceAndPrune rs = (rs.map stepRipple).filter (fun r => decide ¬ rippleDone r) := by
  rcases List.eq_nil_or_concat' rs with rfl | ⟨l₀, a, rfl⟩
  · rfl
  · rw [advanceAndPrune, if_neg (by simp)]
    have hsub : (l₀ ++ [a]).length - 1 = l₀.length := by simp
    rw [hsub]
    have := pruneFrom_spec l₀.length (l₀ ++ [a]) [] (by simp)
    simpa using this

theorem mem_advanceAndPrune {r' : Ripple} {rs : List Ripple}
    (h : r' ∈ advanceAndPrune rs) :
    ∃ r ∈ rs, r' = stepRipple r ∧ ¬ rippleDone r' := by
  rw [advanceAndPrune_eq] at h
  obtain ⟨hmem, hkeep⟩ := List.mem_filter.mp h
  obtain ⟨r, hr, hstep⟩ := List.mem_map.mp hmem
  exact ⟨r, hr, hstep.symm, by simpa using hkeep⟩

theorem stepRipple_radius (r : Ripple) : (stepRipple r).radius = r.radius + r.speed := rfl

theorem stepRipple_speed (r : Ripple) : (stepRipple r).speed = r.speed := rfl

theorem stepRipple_maxRadius (r : Ripple) : (stepRipple r).maxRadius = r.maxRadius := rfl

/-- After `n` complete advance-and-prune passes, every ripple still in the
store descends from a ripple of the original store whose radius has grown by
exactly `n` times its growth rate, and (once at least one pass ran) it
survived the removal test of the last pass. -/
theorem mem_iterate_advanceAndPrune :
    ∀ (n : Nat) (rs : List Ripple) (r' : Ripple), r' ∈ advanceAndPrune^[n] rs →
      ∃ r ∈ rs, r'.radius = r.radius + n * r.speed ∧ r'.speed = r.speed ∧
        r'.maxRadius = r.maxRadius ∧ (n ≠ 0 → ¬ rippleDone r') := by
  intro n
  induction n with
  | zero =>
    intro rs r' h
    exact ⟨r', by simpa using h, by norm_num, rfl, rfl, by simp⟩
  | succ n ih =>
    intro rs r' h
    rw [Function.iterate_succ_apply'] at h
    obtain ⟨r₁, hr₁, hstep, hkeep⟩ := mem_advanceAndPrune h
    obtain ⟨r, hr, hrad, hspd, hmax, _⟩ := ih rs r₁ hr₁
    refine ⟨r, hr, ?_, ?_, ?_, fun _ => hkeep⟩
    · rw [hstep, stepRipple_radius, hrad, hspd]
      push_cast
      ring
    · rw [hstep, stepRipple_speed, hspd]
    · rw [hstep, stepRipple_maxRadius, hmax]

/-- A store whose ripples all have nonnegative radius and positive growth
rate empties once `n` passes have pushed every radius past its cap. -/
theorem iterate_advanceAndPrune_eq_nil (rs : List Ripple) (n : Nat)
    (hn : 1 ≤ n) (hgrow : ∀ r ∈ rs, r.maxRadius ≤ r.radius + n * r.speed) :
    advanceAndPrune^[n] rs = [] := by
  rw [List.eq_nil_iff_forall_not_mem]
  intro r' hmem
  obtain ⟨r, hr, hrad, hspd, hmax, hkeep⟩ := mem_iterate_advanceAndPrune n rs r' hmem
  have hk := hkeep (by omega)
  rw [rippleDone] at hk
  push_neg at hk
  have hlt : r'.radius < r'.maxRadius := hk.1
  rw [hrad, hmax] at hlt
  exact absurd (hgrow r hr) (not_le.mpr hlt)

/-! ### Bounds on the spawn arithmetic -/

theorem createRipple_fields (x0 y0 mag dep sm : ℚ) (auto : Bool) :
    (createRippleFromWorld x0 y0 mag dep sm auto).radius = 0 ∧
    (createRippleFromWorld x0 y0 mag dep sm auto).opacity = 1 ∧
    (createRippleFromWorld x0 y0 mag dep sm auto).maxRadius =
      80 + 220 * ((max 3 (min 9 mag) - 3) / 6) *
        (0.4 + 0.6 * (1 - max 0 (min 700 dep) / 700)) ∧
    (createRippleFromWorld x0 y0 mag dep sm auto).speed =
      1.1 * sm * (0.6 + 0.8 * ((max 3 (min 9 mag) - 3) / 6)) :=
  ⟨rfl, rfl, rfl, rfl⟩

theorem magFactor_bounds (mag : ℚ) :
    0 ≤ (max 3 (min 9 mag) - 3) / 6 ∧ (max 3 (min 9 mag) - 3) / 6 ≤ 1 := by
  have h1 : (3 : ℚ) ≤ max 3 (min 9 mag) := le_max_left _ _
  have h2 : max 3 (min 9 mag) ≤ 9 := max_le (by norm_num) (min_le_left _ _)
  constructor <;> linarith

theorem depthFactor_bounds (dep : ℚ) :
    0 ≤ 1 - max 0 (min 700 dep) / 700 ∧ 1 - max 0 (min 700 dep) / 700 ≤ 1 := by
  have h1 : (0 : ℚ) ≤ max 0 (min 700 dep) := le_max_left _ _
  have h2 : max 0 (min 700 dep) ≤ 700 := max_le (by norm_num) (min_le_left _ _)
  constructor <;> linarith

theorem createRipple_maxRadius_ge (x0 y0 mag dep sm : ℚ) (auto : Bool) :
    80 ≤ (createRippleFromWorld x0 y0 mag dep sm auto).maxRadius := by
  obtain ⟨-, -, hmax, -⟩ := createRipple_fields x0 y0 mag dep sm auto
  rw [hmax]
  obtain ⟨hm0, -⟩ := magFactor_bounds mag
  obtain ⟨hd0, -⟩ := depthFactor_bounds dep
  nlinarith

theorem createRipple_speed_pos (x0 y0 mag dep sm : ℚ) (auto : Bool)
    (hsm : 0 < sm) : 0 < (createRippleFromWorld x0 y0 mag dep sm auto).speed := by
  obtain ⟨-, -, -, hspd⟩ := createRipple_fields x0 y0 mag dep sm auto
  rw [hspd]
  obtain ⟨hm0, -⟩ := magFactor_bounds mag
  nlinarith

theorem createRipple_speed_nonneg (x0 y0 mag dep sm : ℚ) (auto : Bool)
    (hsm : 0 ≤ sm) : 0 ≤ (createRippleFromWorld x0 y0 mag dep sm auto).speed := by
  obtain ⟨-, -, -, hspd⟩ := createRipple_fields x0 y0 mag dep sm auto
  rw [hspd]
  obtain ⟨hm0, -⟩ := magFactor_bounds mag
  nlinarith

/-! ### Bounds on the JavaScript remainder -/

theorem jsMod_nonneg_of_nonneg {a b : ℚ} (hb : 0 < b) (ha : 0 ≤ a) :
    0 ≤ jsMod a b := by
  rw [jsMod, jsTrunc, if_pos (div_nonneg ha hb.le)]
  have hfl := Int.floor_le (a / b)
  have := mul_le_mul_of_nonneg_left hfl hb.le
  rw [mul_div_cancel₀ _ (ne_of_gt hb)] at this
  linarith

theorem jsMod_lt_of_nonneg {a b : ℚ} (hb : 0 < b) (ha : 0 ≤ a) :
    jsMod a b < b := by
  rw [jsMod, jsTrunc, if_pos (div_nonneg ha hb.le)]
  have hfl := Int.lt_floor_add_one (a / b)
  have := mul_lt_mul_of_pos_left hfl hb
  rw [mul_add, mul_one, mul_div_cancel₀ _ (ne_of_gt hb)] at this
  linarith

theorem jsMod_bounds {a b : ℚ} (hb : 0 < b) :
    -b < jsMod a b ∧ jsMod a b < b := by
  by_cases ha : 0 ≤ a
  · have h1 := jsMod_nonneg_of_nonneg hb ha
    have h2 := jsMod_lt_of_nonneg hb ha
    constructor <;> linarith
  · push_neg at ha
    have hq : a / b < 0 := div_neg_of_neg_of_pos ha hb
    rw [jsMod, jsTrunc, if_neg (not_le.mpr hq)]
    have hc1 := Int.le_ceil (a / b)
    have hc2 := Int.ceil_lt_add_one (a / b)
    have h1 := mul_le_mul_of_nonneg_left hc1 hb.le
    have h2 := mul_lt_mul_of_pos_left hc2 hb
    rw [mul_div_cancel₀ _ (ne_of_gt hb)] at h1
    rw [mul_add, mul_one, mul_div_cancel₀ _ (ne_of_gt hb)] at h2
    constructor <;> linarith

/-! ### Throttle helper lemmas -/

theorem maybeSpawnAutoRipple_noop_time {enabled : Bool} {events : List Quake}
    {sm t : ℚ} {st : AutoState} {rs : List Ripple}
    (h : t - st.lastAutoRippleTime < 2000) :
    maybeSpawnAutoRipple enabled events sm t st rs = (st, rs) := by
  rw [maybeSpawnAutoRipple]
  by_cases h1 : enabled = false ∨ events = []
  · rw [dif_pos h1]
  · rw [dif_neg h1, if_pos h]

theorem runAuto_noop (enabled : Bool) (events : List Quake) (sm : ℚ)
    (st : AutoState) (rs : List Ripple) :
    ∀ ts : List ℚ, (∀ s ∈ ts, s - st.lastAutoRippleTime < 2000) →
      runAuto enabled events sm ts (st, rs) = (st, rs) := by
  intro ts
  induction ts with
  | nil => intro _; rfl
  | cons t ts ih =>
    intro hall
    have hstep : maybeSpawnAutoRipple enabled events sm t st rs = (st, rs) :=
      maybeSpawnAutoRipple_noop_time (hall t (List.mem_cons_self t ts))
    have : runAuto enabled events sm (t :: ts) (st, rs) =
        runAuto enabled events sm ts (st, rs) := by
      rw [runAuto, List.foldl_cons]
      show List.foldl _ (maybeSpawnAutoRipple enabled events sm t st rs) ts = _
      rw [hstep]
      rfl
    rw [this]
    exact ih (fun s hs => hall s (List.mem_cons_of_mem t hs))

/-! ### Reachable ripple stores

`Reach` closes the empty store under the two mutations the program performs:
a spawn (`createRippleFromWorld` + push) with a nonnegative speed multiplier,
and a complete per-frame advance-and-prune pass.  `ReachAny` is the same
relation with the speed multiplier unconstrained. -/

inductive Reach : List Ripple → Prop where
  | nil : Reach []
  | spawn (rs : List Ripple) (x0 y0 mag dep sm : ℚ) (auto : Bool) (hsm : 0 ≤ sm) :
      Reach rs → Reach (pushRipple rs x0 y0 mag dep sm auto)
  | frame (rs : List Ripple) : Reach rs → Reach (advanceAndPrune rs)

inductive ReachAny : List Ripple → Prop where
  | nil : ReachAny []
  | spawn (rs : List Ripple) (x0 y0 mag dep sm : ℚ) (auto : Bool) :
      ReachAny rs → ReachAny (pushRipple rs x0 y0 mag dep sm auto)
  | frame (rs : List Ripple) : ReachAny rs → ReachAny (advanceAndPrune rs)

/-- The store invariant, strengthened with nonnegative growth rate so that it
is inductive under the per-frame pass. -/
theorem reach_invariant {rs : List Ripple} (h : Reach rs) :
    ∀ r ∈ rs, 0 ≤ r.radius ∧ 0 ≤ r.speed ∧ r.radius < r.maxRadius ∧ 0 < r.opacity := by
  induction h with
  | nil => intro r hr; simp at hr
  | spawn rs x0 y0 mag dep sm auto hsm _ ih =>
    intro r hr
    rw [pushRipple, List.mem_append] at hr
    rcases hr with hr | hr
    · exact ih r hr
    · rw [List.mem_singleton] at hr
      subst hr
      obtain ⟨hrad, hop, -, -⟩ := createRipple_fields x0 y0 mag dep sm auto
      refine ⟨le_of_eq hrad.symm, createRipple_speed_nonneg x0 y0 mag dep sm auto hsm, ?_, ?_⟩
      · rw [hrad]
        have := createRipple_maxRadius_ge x0 y0 mag dep sm auto
        linarith
      · rw [hop]; norm_num
  | frame rs _ ih =>
    intro r' hr'
    obtain ⟨r, hr, hstep, hkeep⟩ := mem_advanceAndPrune hr'
    obtain ⟨hrad, hspd, -, -⟩ := ih r hr
    rw [rippleDone] at hkeep
    push_neg at hkeep
    refine ⟨?_, ?_, lt_of_not_le (fun hc => absurd hc (not_le.mpr hkeep.1)), hkeep.2⟩
    · rw [hstep, stepRipple_radius]
      linarith
    · rw [hstep, stepRipple_speed]
      exact hspd

/-! ## Claim theorems -/

/-- C1: one complete pass of the `drawFrame` ripple loop visits every stored
ripple exactly once, updates it (`radius += speed`, then `opacity = 1 -
radius/maxRadius` with the new radius), and removes it in that same frame if
and only if the updated ripple has `radius ≥ maxRadius` or `opacity ≤ 0`;
the surviving ripples are exactly the updated non-removed ones, in order —
the reverse iteration with `splice` skips nobody. -/
theorem claim_C1_advanceAndPrune (rs : List Ripple) :
    advanceAndPrune rs =
      (rs.map (fun r =>
        { r with radius := r.radius + r.speed,
                 opacity := 1 - (r.radius + r.speed) / r.maxRadius })).filter
        (fun r => decide ¬ (r.radius ≥ r.maxRadius ∨ r.opacity ≤ 0)) :=
  advanceAndPrune_eq rs

/-- C2: every spawn call clamps magnitude to `[3,9]` and depth to `[0,700]`,
builds the ripple with exactly the specified `maxRadius`, `growthRate`
(`speed`), `lineWidth`, `radius = 0` and `opacity = 1`, and appends it at
the end of the store; the call is total and never fails. -/
theorem claim_C2_spawn (rs : List Ripple) (x0 y0 mag dep sm : ℚ) (auto : Bool) :
    pushRipple rs x0 y0 mag dep sm auto =
      rs ++ [Ripple.mk x0 y0 0
        (80 + 220 * ((max 3 (min 9 mag) - 3) / 6) *
          (0.4 + 0.6 * (1 - max 0 (min 700 dep) / 700)))
        (1.1 * sm * (0.6 + 0.8 * ((max 3 (min 9 mag) - 3) / 6)))
        (2 + 3 * ((max 3 (min 9 mag) - 3) / 6))
        (if auto then "#4ade80" else "#22d3ee")
        1 auto] :=
  rfl

/-- C4: for every rational offset (including negative ones) and positive
width `w`, the looping-offset normalization `((offset % w) + w) % w` (with
the JavaScript truncating remainder) lands in `[0, w)`; in particular
`normalizeOffset (-5) 800 = 795`. -/
theorem claim_C4_normalize :
    (∀ (offset w : ℚ), 0 < w →
      0 ≤ normalizeOffset offset w ∧ normalizeOffset offset w < w) ∧
    normalizeOffset (-5) 800 = 795 := by
  constructor
  · intro offset w hw
    obtain ⟨hlo, hhi⟩ := jsMod_bounds (a := offset) hw
    have hsum : 0 ≤ jsMod offset w + w := by linarith
    exact ⟨jsMod_nonneg_of_nonneg hw hsum, jsMod_lt_of_nonneg hw hsum⟩
  · have h1 : jsMod (-5) 800 = -5 := by
      rw [jsMod, jsTrunc, if_neg (by norm_num)]
      norm_num
    have h2 : jsMod 795 800 = 795 := by
      rw [jsMod, jsTrunc, if_pos (by norm_num)]
      norm_num
    rw [normalizeOffset, h1]
    norm_num [h2]

/-- C4 witness: the bound instantiated at `offset = -5`, `w = 800`. -/
theorem claim_C4_witness :
    (0 : ℚ) < 800 ∧ 0 ≤ normalizeOffset (-5) 800 ∧ normalizeOffset (-5) 800 < 800 :=
  ⟨by norm_num, claim_C4_normalize.1 (-5) 800 (by norm_num)⟩

/-- C5: for a base coordinate and an offset both in `[0, w)`, converting to
screen coordinates (add offset, wrap once past `w`) and back (subtract
offset, wrap once below `0`) is the identity. -/
theorem claim_C5_roundtrip (x offset w : ℚ)
    (hx0 : 0 ≤ x) (hxw : x < w) (ho0 : 0 ≤ offset) (how : offset < w) :
    toBase (toScreen x offset w) offset w = x := by
  rw [toScreen, toBase]
  by_cases h1 : w < x + offset
  · rw [if_pos h1, if_pos (by linarith)]
    ring
  · rw [if_neg h1, if_neg (by linarith)]
    ring

/-- C5 witness: round trip at `x = 795`, `offset = 10`, `w = 800`, where the
screen coordinate wraps. -/
theorem claim_C5_witness :
    (0 : ℚ) ≤ 795 ∧ (795 : ℚ) < 800 ∧ (0 : ℚ) ≤ 10 ∧ (10 : ℚ) < 800 ∧
      toBase (toScreen 795 10 800) 10 800 = 795 :=
  ⟨by norm_num, by norm_num, by norm_num, by norm_num,
    claim_C5_roundtrip 795 10 800 (by norm_num) (by norm_num) (by norm_num) (by norm_num)⟩

/-- C8 counterexample: with speed multiplier `0` the two growth rates are
both `0`, so the spawned (magnitude 9, depth 0) ripple's growth rate is not
strictly greater than the (magnitude 3, depth 700) one's — the claim's
unrestricted "for every speed multiplier" fails at `sm = 0`. -/
theorem claim_C8_counterexample :
    (createRippleFromWorld 0 0 9 0 0 false).speed =
        (createRippleFromWorld 0 0 3 700 0 false).speed ∧
      ¬ (createRippleFromWorld 0 0 3 700 0 false).speed <
          (createRippleFromWorld 0 0 9 0 0 false).speed := by
  norm_num [createRippleFromWorld]

/-- C8 (amended): for every speed multiplier the (magnitude 9, depth 0)
ripple has strictly greater `maxRadius` than the (magnitude 3, depth 700)
one, and for every positive speed multiplier it also has strictly greater
growth rate. -/
theorem claim_C8_monotone (x0 y0 x1 y1 sm : ℚ) (auto : Bool) :
    (createRippleFromWorld x1 y1 3 700 sm auto).maxRadius <
        (createRippleFromWorld x0 y0 9 0 sm auto).maxRadius ∧
      (0 < sm →
        (createRippleFromWorld x1 y1 3 700 sm auto).speed <
          (createRippleFromWorld x0 y0 9 0 sm auto).speed) := by
  constructor
  · norm_num [createRippleFromWorld]
  · intro hsm
    have h : (createRippleFromWorld x1 y1 3 700 sm auto).speed = 0.66 * sm ∧
        (createRippleFromWorld x0 y0 9 0 sm auto).speed = 1.54 * sm := by
      norm_num [createRippleFromWorld]
      constructor <;> ring
    rw [h.1, h.2]
    nlinarith

/-- C8 witness: the amended monotonicity instantiated at speed multiplier 1. -/
theorem claim_C8_witness :
    (createRippleFromWorld 0 0 3 700 1 false).maxRadius <
        (createRippleFromWorld 0 0 9 0 1 false).maxRadius ∧
      (createRippleFromWorld 0 0 3 700 1 false).speed <
        (createRippleFromWorld 0 0 9 0 1 false).speed :=
  ⟨(claim_C8_monotone 0 0 0 0 1 false).1,
    (claim_C8_monotone 0 0 0 0 1 false).2 (by norm_num)⟩

/-- C9: spawning with magnitude 15 produces a ripple identical to spawning
with magnitude 9 (the clamp's upper boundary), and spawning with depth -10
produces a ripple identical to spawning with depth 0 (the clamp's lower
boundary), for all other parameters. -/
theorem claim_C9_clamp_boundaries :
    (∀ (x0 y0 dep sm : ℚ) (auto : Bool),
      createRippleFromWorld x0 y0 15 dep sm auto =
        createRippleFromWorld x0 y0 9 dep sm auto) ∧
    (∀ (x0 y0 mag sm : ℚ) (auto : Bool),
      createRippleFromWorld x0 y0 mag (-10) sm auto =
        createRippleFromWorld x0 y0 mag 0 sm auto) := by
  constructor
  · intro x0 y0 dep sm auto
    have h : min 9 (15 : ℚ) = 9 := by norm_num
    simp only [createRippleFromWorld, h]
    norm_num
  · intro x0 y0 mag sm auto
    have h : max 0 (min 700 (-10 : ℚ)) = max 0 (min 700 (0 : ℚ)) := by norm_num
    simp only [createRippleFromWorld, h]

/-- C3: a throttle tick is a no-op when the checkbox is off or the event
list is empty, and a no-op when less than 2000ms of animation time passed
since the last spawn; otherwise it spawns exactly one auto ripple from
`events[cursorIndex % events.length]`, increments the cursor and records the
timestamp.  Consequently, from any state whose recorded spawn time is `st.lastAutoRippleTime`,
every sequence of ticks at timestamps less than 2000ms later changes
nothing: at most one auto-spawn can occur per 2000ms window, and the cursor
advances one event (cyclically, via the modulus) per spawn. -/
theorem claim_C3_throttle (enabled : Bool) (events : List Quake) (sm t : ℚ)
    (st : AutoState) (rs : List Ripple) :
    ((enabled = false ∨ events = []) →
      maybeSpawnAutoRipple enabled events sm t st rs = (st, rs)) ∧
    (t - st.lastAutoRippleTime < 2000 →
      maybeSpawnAutoRipple enabled events sm t st rs = (st, rs)) ∧
    (∀ h : events ≠ [], enabled = true → 2000 ≤ t - st.lastAutoRippleTime →
      maybeSpawnAutoRipple enabled events sm t st rs =
        (AutoState.mk (st.autoRippleIndex + 1) t,
          rs ++ [createRippleFromWorld
            (events.get ⟨st.autoRippleIndex % events.length,
              Nat.mod_lt _ (List.length_pos.mpr h)⟩).baseX
            (events.get ⟨st.autoRippleIndex % events.length,
              Nat.mod_lt _ (List.length_pos.mpr h)⟩).baseY
            (events.get ⟨st.autoRippleIndex % events.length,
              Nat.mod_lt _ (List.length_pos.mpr h)⟩).mag
            (events.get ⟨st.autoRippleIndex % events.length,
              Nat.mod_lt _ (List.length_pos.mpr h)⟩).depth
            sm true])) ∧
    (∀ ts : List ℚ, (∀ s ∈ ts, s - st.lastAutoRippleTime < 2000) →
      runAuto enabled events sm ts (st, rs) = (st, rs)) := by
  refine ⟨fun h => by rw [maybeSpawnAutoRipple, dif_pos h],
    fun h => maybeSpawnAutoRipple_noop_time h, ?_,
    fun ts hts => runAuto_noop enabled events sm st rs ts hts⟩
  intro h he ht
  rw [maybeSpawnAutoRipple, dif_neg (by simp [he, h]), if_neg (not_lt.mpr ht)]
  rfl

/-- C3 witness: the four conjuncts at concrete inputs — a disabled tick, a
tick 100ms after the last spawn, a spawning tick at 2000ms on a singleton
event list, and a two-tick run entirely inside the 2000ms window. -/
theorem claim_C3_witness :
    maybeSpawnAutoRipple false [Quake.mk 1 2 5 10] 1 0 initAutoState [] =
        (initAutoState, []) ∧
      maybeSpawnAutoRipple true [Quake.mk 1 2 5 10] 1 100 initAutoState [] =
        (initAutoState, []) ∧
      maybeSpawnAutoRipple true [Quake.mk 1 2 5 10] 1 2000 initAutoState [] =
        (AutoState.mk 1 2000, [createRippleFromWorld 1 2 5 10 1 true]) ∧
      runAuto true [Quake.mk 1 2 5 10] 1 [100, 200] (initAutoState, []) =
        (initAutoState, []) := by
  refine ⟨(claim_C3_throttle false [Quake.mk 1 2 5 10] 1 0 initAutoState []).1
      (Or.inl rfl),
    (claim_C3_throttle true [Quake.mk 1 2 5 10] 1 100 initAutoState []).2.1
      (by norm_num [initAutoState]), ?_, ?_⟩
  · have := (claim_C3_throttle true [Quake.mk 1 2 5 10] 1 2000 initAutoState []).2.2.1
      (by simp) rfl (by norm_num [initAutoState])
    simpa [initAutoState] using this
  · refine (claim_C3_throttle true [Quake.mk 1 2 5 10] 1 0 initAutoState []).2.2.2
      [100, 200] ?_
    intro s hs
    rcases List.mem_cons.mp hs with rfl | hs'
    · norm_num [initAutoState]
    · rcases List.mem_cons.mp hs' with rfl | hs''
      · norm_num [initAutoState]
      · simp at hs''

/-- C7 counterexample: from the initial throttle state (`lastAutoRippleTime
= 0`), the tick at `t = 0` is a no-op (`0 - 0 < 2000`), and running the
claimed scenario (3 events, ticks at 0, 500, 2100, 4300) spawns only 2
ripples — not the claimed 3 with a spawn at `t = 0`. -/
theorem claim_C7_counterexample :
    maybeSpawnAutoRipple true
        [Quake.mk 1 2 5 10, Quake.mk 3 4 6 20, Quake.mk 5 6 7 30] 1 0
        initAutoState [] = (initAutoState, []) ∧
      (runAuto true [Quake.mk 1 2 5 10, Quake.mk 3 4 6 20, Quake.mk 5 6 7 30]
          1 [0, 500, 2100, 4300] (initAutoState, [])).2.length = 2 := by
  constructor
  · exact maybeSpawnAutoRipple_noop_time (by norm_num [initAutoState])
  · norm_num [runAuto, maybeSpawnAutoRipple, initAutoState, pushRipple,
      List.cons_ne_nil]

/-- C7 (amended): with the auto-throttle enabled, a 3-event list, and ticks
at timestamps 0, 500, 2100, 4300 from the initial throttle state, spawns
occur exactly at `t = 2100` and `t = 4300` (none at `t = 0`, since the
initial `lastAutoRippleTime = 0` makes `0 - 0 < 2000` a no-op, and none at
`t = 500`), producing ripples from events 0 and 1 in that order. -/
theorem claim_C7_scenario (q0 q1 q2 : Quake) (sm : ℚ) :
    runAuto true [q0, q1, q2] sm [0, 500, 2100, 4300] (initAutoState, []) =
      (AutoState.mk 2 4300,
        [createRippleFromWorld q0.baseX q0.baseY q0.mag q0.depth sm true,
          createRippleFromWorld q1.baseX q1.baseY q1.mag q1.depth sm true]) := by
  norm_num [runAuto, maybeSpawnAutoRipple, initAutoState, pushRipple,
    List.cons_ne_nil]

theorem le_foldr_max (l : List Nat) (x : Nat) (h : x ∈ l) : x ≤ l.foldr max 0 := by
  induction l with
  | nil => simp at h
  | cons a l ih =>
    rcases List.mem_cons.mp h with rfl | h'
    · exact le_max_left _ _
    · exact le_trans (ih h') (le_max_right _ _)

/-- C6: every spawn with a positive speed multiplier yields a ripple with
`maxRadius ≥ 80` (so the per-frame `radius / maxRadius` never divides by
zero) and strictly positive growth rate, hence the ripple leaves the store
within `⌈maxRadius / growthRate⌉` advance-and-prune frames; and any store of
ripples with nonnegative radius and positive growth rate is emptied by
enough frames without new spawns. -/
theorem claim_C6_decay (x0 y0 mag dep sm : ℚ) (auto : Bool) (hsm : 0 < sm) :
    80 ≤ (createRippleFromWorld x0 y0 mag dep sm auto).maxRadius ∧
    0 < (createRippleFromWorld x0 y0 mag dep sm auto).speed ∧
    (∀ n : Nat,
      ⌈(createRippleFromWorld x0 y0 mag dep sm auto).maxRadius /
          (createRippleFromWorld x0 y0 mag dep sm auto).speed⌉ ≤ (n : ℤ) →
      advanceAndPrune^[n] [createRippleFromWorld x0 y0 mag dep sm auto] = []) ∧
    (∀ rs : List Ripple, (∀ r ∈ rs, 0 ≤ r.radius ∧ 0 < r.speed) →
      ∃ n : Nat, advanceAndPrune^[n] rs = []) := by
  have hmax := createRipple_maxRadius_ge x0 y0 mag dep sm auto
  have hspd := createRipple_speed_pos x0 y0 mag dep sm auto hsm
  refine ⟨hmax, hspd, ?_, ?_⟩
  · intro n hn
    have hq : 0 < (createRippleFromWorld x0 y0 mag dep sm auto).maxRadius /
        (createRippleFromWorld x0 y0 mag dep sm auto).speed :=
      div_pos (by linarith) hspd
    have h1 : (1 : ℤ) ≤ n := le_trans (Int.ceil_pos.mpr hq) hn
    refine iterate_advanceAndPrune_eq_nil _ n (by exact_mod_cast h1) ?_
    intro r hr
    rw [List.mem_singleton] at hr
    subst hr
    have hle : (createRippleFromWorld x0 y0 mag dep sm auto).maxRadius /
        (createRippleFromWorld x0 y0 mag dep sm auto).speed ≤ (n : ℚ) := by
      have := Int.ceil_le.mp hn
      exact_mod_cast this
    have := (div_le_iff₀ hspd).mp hle
    obtain ⟨hrad, -, -, -⟩ := createRipple_fields x0 y0 mag dep sm auto
    rw [hrad]
    linarith
  · intro rs hrs
    refine ⟨1 + (rs.map (fun r => (⌈(r.maxRadius - r.radius) / r.speed⌉).toNat)).foldr max 0,
      iterate_advanceAndPrune_eq_nil rs _ (Nat.le_add_right 1 _) ?_⟩
    intro r hr
    obtain ⟨hrad, hspd'⟩ := hrs r hr
    have hmem : (⌈(r.maxRadius - r.radius) / r.speed⌉).toNat ∈
        rs.map (fun r => (⌈(r.maxRadius - r.radius) / r.speed⌉).toNat) :=
      List.mem_map_of_mem _ hr
    have hle : (⌈(r.maxRadius - r.radius) / r.speed⌉).toNat ≤
        (rs.map (fun r => (⌈(r.maxRadius - r.radius) / r.speed⌉).toNat)).foldr max 0 :=
      le_foldr_max _ _ hmem
    have hq : (r.maxRadius - r.radius) / r.speed ≤
        ((1 + (rs.map (fun r => (⌈(r.maxRadius - r.radius) / r.speed⌉).toNat)).foldr max 0 : Nat) : ℚ) := by
      refine le_trans (Int.le_ceil _) ?_
      have h1 : (⌈(r.maxRadius - r.radius) / r.speed⌉ : ℤ) ≤
          ((⌈(r.maxRadius - r.radius) / r.speed⌉).toNat : ℤ) := Int.self_le_toNat _
      have h2 : ((⌈(r.maxRadius - r.radius) / r.speed⌉).toNat : ℤ) ≤
          ((1 + (rs.map (fun r => (⌈(r.maxRadius - r.radius) / r.speed⌉).toNat)).foldr max 0 : Nat) : ℤ) := by
        exact_mod_cast le_trans hle (Nat.le_add_left _ 1)
      exact_mod_cast le_trans h1 h2
    have := (div_le_iff₀ hspd').mp hq
    linarith

/-- C6 witness: a spawn with magnitude 3, depth 700, speed multiplier 100
has `maxRadius = 80` and `growthRate = 66`, and the singleton store empties
within `⌈80/66⌉ = 2` frames. -/
theorem claim_C6_witness :
    (0 : ℚ) < 100 ∧
      80 ≤ (createRippleFromWorld 0 0 3 700 100 false).maxRadius ∧
      0 < (createRippleFromWorld 0 0 3 700 100 false).speed ∧
      advanceAndPrune^[2] [createRippleFromWorld 0 0 3 700 100 false] = [] :=
  ⟨by norm_num,
    (claim_C6_decay 0 0 3 700 100 false (by norm_num)).1,
    (claim_C6_decay 0 0 3 700 100 false (by norm_num)).2.1,
    (claim_C6_decay 0 0 3 700 100 false (by norm_num)).2.2.1 2
      (by norm_num [createRippleFromWorld, Int.ceil_le])⟩

/-- C10 counterexample: the store state reached from the empty store by one
spawn with speed multiplier `-1` followed by one complete advance-and-prune
pass contains a ripple with negative radius, violating the claimed
`0 ≤ radius` invariant under "any interleaving of spawn calls and completed
passes". -/
theorem claim_C10_counterexample :
    ReachAny (advanceAndPrune (pushRipple [] 0 0 3 700 (-1) false)) ∧
      ∃ r ∈ advanceAndPrune (pushRipple [] 0 0 3 700 (-1) false), r.radius < 0 := by
  constructor
  · exact ReachAny.frame _ (ReachAny.spawn [] 0 0 3 700 (-1) false ReachAny.nil)
  · norm_num [pushRipple, advanceAndPrune, pruneFrom, processAt, rippleDone,
      stepRipple, createRippleFromWorld]

/-- C10 (amended): in every store reachable by any interleaving of spawn
calls with nonnegative speed multiplier and completed advance-and-prune
passes, every stored ripple satisfies `0 ≤ radius < maxRadius` and
`opacity > 0`. -/
theorem claim_C10_invariant {rs : List Ripple} (h : Reach rs) :
    ∀ r ∈ rs, 0 ≤ r.radius ∧ r.radius < r.maxRadius ∧ 0 < r.opacity := by
  intro r hr
  obtain ⟨h1, -, h3, h4⟩ := reach_invariant h r hr
  exact ⟨h1, h3, h4⟩

/-- C10 witness: the invariant read off a freshly spawned ripple in the
store reached by one spawn with speed multiplier 1. -/
theorem claim_C10_witness :
    0 ≤ (createRippleFromWorld 0 0 5 100 1 false).radius ∧
      (createRippleFromWorld 0 0 5 100 1 false).radius <
        (createRippleFromWorld 0 0 5 100 1 false).maxRadius ∧
      0 < (createRippleFromWorld 0 0 5 100 1 false).opacity :=
  claim_C10_invariant
    (Reach.spawn [] 0 0 5 100 1 false (by norm_num) Reach.nil)
    (createRippleFromWorld 0 0 5 100 1 false) (by simp [pushRipple])

end Quakes
